import Mathlib

/-
Verification development for the heap-file storage layer (src/heapfile.C).

The source code is shallowly embedded: the mutable object state of
HeapFile / HeapFileScan / InsertFileScan becomes an explicit state record,
and each member function becomes a pure function from state to
(status, result, new state, trace of buffer-manager events).

External collaborators (the buffer pool, the page/slot layer, the db file
layer) are not part of this repository; they are modelled from the spec
(sections 1, 3, 6 of spec.md) at their interface boundary:
  - a Page is a container of (slotNo, record) entries plus a next-page link,
    with capacity PAGESIZE - DPFIXED payload bytes;
  - the buffer pool is modelled as the map from page numbers to pages held
    inside FileState, with pin/unpin/alloc calls recorded as trace events
    (unpin and allocation never fail in the model; readPage fails exactly
    when the requested page number does not exist in the file).
Machine integers of the source (C int) are modelled as Int, with explicit
wraparound (wrap32, asUnsigned) exactly where the source relies on
fixed-width behaviour.
-/

namespace HFM

/-- Status codes of the source (error.h / the statuses heapfile.C uses).
BADPAGEPTR is a model artifact standing for a null or dangling curPage
dereference, which in the source would be undefined behaviour. -/
inductive Status where
  | OK | FILEEXISTS | BADSCANPARM | INVALIDRECLEN | NOSPACE
  | NORECORDS | ENDOFPAGE | NOMORERECS | INVALIDSLOTNO | BADPAGENO
  | BADPAGEPTR
deriving DecidableEq, Repr

/-- Record identifier: (pageNo, slotNo), as in the source. -/
structure RID where
  pageNo : Int
  slotNo : Int
deriving DecidableEq, Repr

/-- Sentinel null RID (-1, -1). -/
def NULLRID : RID := ⟨-1, -1⟩

/-- A record: a byte buffer (bytes as Nat values below 256) plus the
declared length field (a C int, modelled as Int). -/
structure Record where
  data : List Nat
  length : Int
deriving DecidableEq, Repr

/-- Field types of the predicate evaluator. -/
inductive Datatype where
  | STRING | INTEGER | FLOAT
deriving DecidableEq, Repr

/-- Comparison operators of the predicate evaluator. -/
inductive Operator where
  | LT | LTE | EQ | GTE | GT | NE
deriving DecidableEq, Repr

/-- Page size in bytes. Modelled from the spec: the page layer is an
external collaborator; only the maximum payload PAGESIZE - DPFIXED is
observable to this core. -/
def PAGESIZE : Int := 1024

/-- Fixed per-page overhead. Modelled from the spec (external page layout). -/
def DPFIXED : Int := 20

/-- Maximum record payload a page can ever hold (PAGESIZE - DPFIXED). -/
def maxPayload : Int := PAGESIZE - DPFIXED

/-- Maximum file-name length of the header page (external constant of db.h). -/
def MAXNAMESIZE : Int := 50

/-- Width of a platform int in bytes, as tested by startScan. -/
def sizeofInt : Int := 4

/-- Width of a platform float in bytes, as tested by startScan. -/
def sizeofFloat : Int := 4

/-- Value of a C cast (unsigned int)x for an int-ranged x, used by the
oversize check of insertRecord. -/
def asUnsigned (x : Int) : Int := if x < 0 then x + 2 ^ 32 else x

/-- Two's-complement wraparound of a 32-bit signed integer operation. -/
def wrap32 (x : Int) : Int := (x + 2 ^ 31) % 2 ^ 32 - 2 ^ 31

/-- Assemble four bytes, little endian, into an unsigned value (memcpy of
four bytes into a 32-bit word on a little-endian platform). Missing bytes
read as zero. -/
def decodeU32 (bs : List Nat) : Int :=
  (bs.getD 0 0 : Int) + 256 * (bs.getD 1 0 : Int)
    + 65536 * (bs.getD 2 0 : Int) + 16777216 * (bs.getD 3 0 : Int)

/-- Interpret four bytes, little endian, as a platform-native signed int
(twos complement), as the memcpy into iattr / ifltr of matchRec does. -/
def decodeI32 (bs : List Nat) : Int :=
  let u := decodeU32 bs
  if u < 2 ^ 31 then u else u - 2 ^ 32

/-- Sign of strncmp over at most n bytes: compares unsigned bytes, stops at
the first difference or at a NUL byte. Bytes past the end of a buffer read
as zero (the source never reads past the end thanks to the extent guard of
matchRec). -/
def strncmpSign : Nat → List Nat → List Nat → Int
  | 0, _, _ => 0
  | n + 1, a, b =>
    let x := a.headD 0
    let y := b.headD 0
    if x < y then -1
    else if y < x then 1
    else if x = 0 then 0
    else strncmpSign n a.tail b.tail

/-- Value of an IEEE-754 binary32 bit pattern, scaled by 2^149 so that it is
an integer; ordering-faithful for all finite floats (subnormals included).
Exponent 255 patterns (infinities, NaN) come out as huge finite magnitudes;
no claim exercises the FLOAT branch, which is embedded only so that matchRec
is total over all three declared types. -/
def f32val (bs : List Nat) : Int :=
  let u : Nat := (decodeU32 bs).toNat
  let s : Nat := u / 2 ^ 31
  let e : Nat := u / 2 ^ 23 % 2 ^ 8
  let m : Nat := u % 2 ^ 23
  let mag : Int := if e = 0 then (m : Int) else ((m : Int) + 2 ^ 23) * (2 : Int) ^ (e - 1)
  if s = 1 then -mag else mag

/-- A data page. Modelled from the spec: the page layer is an external
collaborator exposing init / getRecord / insertRecord / deleteRecord /
firstRecord / nextRecord / getNextPage / setNextPage. Entries are kept in
slot order; nextSlot is the next fresh slot number. -/
structure Page where
  pageNo : Int
  recs : List (Int × Record)
  nextSlot : Int
  nextPage : Int
deriving DecidableEq, Repr

/-- Page::init - clear the page to empty, end-of-chain link. -/
def Page.init (pno : Int) : Page :=
  { pageNo := pno, recs := [], nextSlot := 0, nextPage := -1 }

/-- Payload bytes currently used on the page. -/
def Page.usedSpace (pg : Page) : Int :=
  (pg.recs.map (fun e => e.2.length)).sum

/-- Page::insertRecord - succeeds with a fresh RID when the record fits in
the remaining payload space, reports NOSPACE otherwise. An empty page
therefore always fits a record of length at most maxPayload (spec 4.3). -/
def Page.insertRecord (pg : Page) (rec : Record) : Status × RID × Page :=
  if pg.usedSpace + rec.length ≤ maxPayload then
    (.OK, ⟨pg.pageNo, pg.nextSlot⟩,
      { pg with recs := pg.recs ++ [(pg.nextSlot, rec)], nextSlot := pg.nextSlot + 1 })
  else
    (.NOSPACE, NULLRID, pg)

/-- Page::getRecord - look up a slot; the failure status models the page
layer rejecting a slot that does not hold a record. -/
def Page.getRecord (pg : Page) (rid : RID) : Status × Record :=
  match pg.recs.find? (fun e => e.1 == rid.slotNo) with
  | some e => (.OK, e.2)
  | none => (.INVALIDSLOTNO, ⟨[], 0⟩)

/-- Page::deleteRecord - remove a slot if present. -/
def Page.deleteRecord (pg : Page) (rid : RID) : Status × Page :=
  if pg.recs.any (fun e => e.1 == rid.slotNo) then
    (.OK, { pg with recs := pg.recs.filter (fun e => e.1 != rid.slotNo) })
  else
    (.INVALIDSLOTNO, pg)

/-- Page::firstRecord - RID of the first record, or NORECORDS. -/
def Page.firstRecord (pg : Page) : Status × RID :=
  match pg.recs with
  | [] => (.NORECORDS, NULLRID)
  | e :: _ => (.OK, ⟨pg.pageNo, e.1⟩)

/-- Page::nextRecord - RID of the first record with a larger slot number
(slots are kept ascending), or ENDOFPAGE. -/
def Page.nextRecord (pg : Page) (cur : RID) : Status × RID :=
  match pg.recs.find? (fun e => decide (cur.slotNo < e.1)) with
  | some e => (.OK, ⟨pg.pageNo, e.1⟩)
  | none => (.ENDOFPAGE, NULLRID)

/-- Page::setNextPage. -/
def Page.setNextPage (pg : Page) (p : Int) : Status × Page :=
  (.OK, { pg with nextPage := p })

/-- Page::getNextPage. -/
def Page.getNextPage (pg : Page) : Status × Int :=
  (.OK, pg.nextPage)

/-- Contents of the pinned header page (FileHdrPage of the source). -/
@[ext]
structure FileHdr where
  fileName : String
  pageCnt : Int
  recCnt : Int
  firstPage : Int
  lastPage : Int

/-- On-disk / in-pool state of one heap file: the header contents, the data
pages by page number, and the next page number the buffer manager would
allocate (the header page is page 0, the first data page is page 1, so
nextAlloc is also the total number of pages ever allocated). -/
@[ext]
structure FileState where
  hdr : FileHdr
  pages : Int → Option Page
  nextAlloc : Int

/-- Buffer-manager interaction events, recorded as a trace by every
embedded operation. access p stands for a dereference of a page handle
(a curPage-> or page-> call in the source) on the frame holding page p. -/
inductive BufEvent where
  | read : Int → BufEvent
  | unpin : Int → Bool → BufEvent
  | alloc : Int → BufEvent
  | access : Int → BufEvent
deriving DecidableEq, Repr

/-- Open-instance state shared by HeapFile, HeapFileScan and InsertFileScan
(the source uses inheritance; all fields live in one record here).
curPage models the current-page pointer as the page number its frame holds
(none = NULL). The filter fields and the mark fields are uninitialised in
the source until startScan / markScan run; the model gives them inert
defaults, and no embedded operation reads them before setting them except
as the source itself would. -/
@[ext]
structure ScanState where
  file : FileState
  hdrDirtyFlag : Bool
  curPage : Option Int
  curPageNo : Int
  curDirtyFlag : Bool
  curRec : RID
  filter : Option (List Nat)
  offset : Int
  length : Int
  type : Datatype
  op : Operator
  markedPageNo : Int
  markedRec : RID

/-- Header and data pages of a freshly created heap file, as createHeapFile
initialises them: header page 0, one empty data page 1, pageCnt = 2,
recCnt = 0, firstPage = lastPage = 1. -/
def newHeapFileState (name : String) : FileState :=
  { hdr := { fileName := name.take (MAXNAMESIZE - 1).toNat, pageCnt := 2, recCnt := 0,
             firstPage := 1, lastPage := 1 },
    pages := fun p => if p = 1 then some (Page.init 1) else none,
    nextAlloc := 2 }

/-- The db layer: the set of existing files by name. -/
structure DB where
  files : List (String × FileState)

/-- Look a file up by name (db::openFile succeeds exactly on these). -/
def dbLookup (db : DB) (name : String) : Option FileState :=
  (db.files.find? (fun e => e.1 == name)).map (fun e => e.2)

/-- createHeapFile (heapfile.C lines 5-75): if opening the file succeeds it
already exists and FILEEXISTS is returned with nothing created; otherwise
the file is created, a header page and one empty data page are allocated,
and the header is initialised (pageCnt = 2, recCnt = 0, firstPage =
lastPage = data page number). -/
def createHeapFile (db : DB) (name : String) : Status × DB :=
  match dbLookup db name with
  | some _ => (.FILEEXISTS, db)
  | none => (.OK, { files := (name, newHeapFileState name) :: db.files })

/-- Cursor state of an instance whose constructor failed before pinning a
data page (curPage NULL); only the file part is meaningful. -/
def closedState (f : FileState) : ScanState :=
  { file := f, hdrDirtyFlag := false, curPage := none, curPageNo := 0,
    curDirtyFlag := false, curRec := NULLRID, filter := none, offset := 0,
    length := 0, type := .STRING, op := .EQ, markedPageNo := 0, markedRec := NULLRID }

/-- HeapFile constructor (lines 84-139) plus the HeapFileScan constructor
(line 229, filter = NULL): pin the header page, then pin the first data
page as current, current RID = NULLRID. Fails if the first data page
cannot be read. -/
def openHeapFile (f : FileState) : Status × ScanState :=
  match f.pages f.hdr.firstPage with
  | none => (.BADPAGENO, closedState f)
  | some _ =>
    (.OK, { closedState f with
            curPage := some f.hdr.firstPage, curPageNo := f.hdr.firstPage,
            curDirtyFlag := false, curRec := NULLRID })

/-- Shared tail of HeapFile::getRecord (lines 212-221): read the record
through the selected page handle h; on failure, unpin rid.pageNo only when
curPageNo differs from rid.pageNo; on success set curRec. -/
def HeapFile.getRecordTail (s : ScanState) (h : Int) (rid : RID) (evs : List BufEvent) :
    Status × Option Record × ScanState × List BufEvent :=
  match s.file.pages h with
  | none => (.BADPAGEPTR, none, s, evs ++ [.access h])
  | some pg =>
    let r := Page.getRecord pg rid
    let evs := evs ++ [.access h]
    if r.1 ≠ .OK then
      if s.curPageNo ≠ rid.pageNo then
        (r.1, none, s, evs ++ [.unpin rid.pageNo false])
      else
        (r.1, none, s, evs)
    else
      (.OK, some r.2, { s with curRec := rid }, evs)

/-- Page-switch arm of HeapFile::getRecord (lines 202-209): read rid.pageNo
into the pool, make it the current page (dirty flag false), then run the
shared tail. -/
def HeapFile.getRecordSwitch (s : ScanState) (rid : RID) (evs : List BufEvent) :
    Status × Option Record × ScanState × List BufEvent :=
  match s.file.pages rid.pageNo with
  | none => (.BADPAGENO, none, s, evs ++ [.read rid.pageNo])
  | some _ =>
    let s' := { s with curPage := some rid.pageNo, curPageNo := rid.pageNo,
                       curDirtyFlag := false }
    HeapFile.getRecordTail s' rid.pageNo rid (evs ++ [BufEvent.read rid.pageNo])

/-- HeapFile::getRecord (lines 185-222): if rid is on the pinned current
page, read directly; otherwise unpin the current page (if any), pin
rid.pageNo as the new current page, and read from it. -/
def HeapFile.getRecord (s : ScanState) (rid : RID) :
    Status × Option Record × ScanState × List BufEvent :=
  match s.curPage with
  | some h =>
    if s.curPageNo = rid.pageNo then
      HeapFile.getRecordTail s h rid []
    else
      HeapFile.getRecordSwitch s rid [.unpin s.curPageNo s.curDirtyFlag]
  | none => HeapFile.getRecordSwitch s rid []

/-- HeapFileScan::startScan (lines 232-259): a NULL filter disables
filtering; otherwise the five parameters are validated and stored. -/
def HeapFileScan.startScan (s : ScanState) (offset_ length_ : Int) (type_ : Datatype)
    (filter_ : Option (List Nat)) (op_ : Operator) : Status × ScanState :=
  match filter_ with
  | none => (.OK, { s with filter := none })
  | some fb =>
    if (offset_ < 0 ∨ length_ < 1)
        ∨ (type_ ≠ .STRING ∧ type_ ≠ .INTEGER ∧ type_ ≠ .FLOAT)
        ∨ ((type_ = .INTEGER ∧ length_ ≠ sizeofInt)
            ∨ (type_ = .FLOAT ∧ length_ ≠ sizeofFloat))
        ∨ (op_ ≠ .LT ∧ op_ ≠ .LTE ∧ op_ ≠ .EQ ∧ op_ ≠ .GTE ∧ op_ ≠ .GT ∧ op_ ≠ .NE) then
      (.BADSCANPARM, s)
    else
      (.OK, { s with offset := offset_, length := length_, type := type_,
                     filter := some fb, op := op_ })

/-- HeapFileScan::endScan (lines 262-275): unpin the current page if one is
pinned, with its accumulated dirty flag. -/
def HeapFileScan.endScan (s : ScanState) : Status × ScanState × List BufEvent :=
  match s.curPage with
  | some _ =>
    (.OK, { s with curPage := none, curPageNo := 0, curDirtyFlag := false },
      [.unpin s.curPageNo s.curDirtyFlag])
  | none => (.OK, s, [])

/-- HeapFileScan::markScan (lines 282-288): snapshot (curPageNo, curRec). -/
def HeapFileScan.markScan (s : ScanState) : Status × ScanState :=
  (.OK, { s with markedPageNo := s.curPageNo, markedRec := s.curRec })

/-- HeapFileScan::resetScan (lines 290-311): if the marked page differs
from the current page, unpin the current page (if pinned), restore
curPageNo and curRec, re-read the marked page (dirty flag false);
otherwise only restore curRec. -/
def HeapFileScan.resetScan (s : ScanState) : Status × ScanState × List BufEvent :=
  if s.markedPageNo ≠ s.curPageNo then
    let evs : List BufEvent :=
      match s.curPage with
      | some _ => [.unpin s.curPageNo s.curDirtyFlag]
      | none => []
    let s1 := { s with curPageNo := s.markedPageNo, curRec := s.markedRec }
    match s.file.pages s.markedPageNo with
    | none => (.BADPAGENO, s1, evs ++ [.read s.markedPageNo])
    | some _ =>
      (.OK, { s1 with curPage := some s.markedPageNo, curDirtyFlag := false },
        evs ++ [.read s.markedPageNo])
  else
    (.OK, { s with curRec := s.markedRec }, [])

/-- HeapFileScan::matchRec (lines 401-453). A NULL filter always matches.
A field window reaching past the declared record length never matches.
Otherwise length bytes at offset are compared with the filter bytes:
INTEGER subtracts the two platform ints in wrapping 32-bit arithmetic
(the C int subtraction of line 422); STRING takes the sign of strncmp;
FLOAT subtracts the decoded binary32 values. The resulting difference is
assigned to a C float and compared against zero; converting an int or a
strncmp sign to float preserves the sign trichotomy exactly (any nonzero
int has magnitude at least 1 and rounding is sign-preserving), so the model
compares the Int difference against 0 directly. -/
def HeapFileScan.matchRec (s : ScanState) (rec : Record) : Bool :=
  match s.filter with
  | none => true
  | some fb =>
    if s.offset + s.length - 1 ≥ rec.length then false
    else
      let window := (rec.data.drop s.offset.toNat).take s.length.toNat
      let diff : Int :=
        match s.type with
        | .INTEGER => wrap32 (decodeI32 window - decodeI32 (fb.take s.length.toNat))
        | .FLOAT => f32val window - f32val (fb.take s.length.toNat)
        | .STRING => strncmpSign s.length.toNat (rec.data.drop s.offset.toNat) fb
      match s.op with
      | .LT => decide (diff < 0)
      | .LTE => decide (diff ≤ 0)
      | .EQ => decide (diff = 0)
      | .GTE => decide (diff ≥ 0)
      | .GT => decide (diff > 0)
      | .NE => decide (diff ≠ 0)

/-- One result of HeapFileScan::scanNext: status, RID produced (some only on
OK), resulting state, trace. -/
def ScanOut := Status × Option RID × ScanState × List BufEvent

/-- Outcome of one iteration of the scanNext while loop: done = the source
would return, cont = the source would run the loop again in the new state. -/
inductive LoopRes where
  | done : Status → Option RID → ScanState → List BufEvent → LoopRes
  | cont : ScanState → List BufEvent → LoopRes

/-- One iteration of the while loop of HeapFileScan::scanNext (lines
322-365): fetch the first record (when curRec is the null RID) or the
record after curRec from the current page; on NORECORDS or ENDOFPAGE,
unpin the current page, THEN read the next-page link through the (now
stale) handle of that page, and either finish with NOMORERECS at the end
sentinel or pin the next page and continue; any other fetch failure
returns immediately; otherwise read the full record, advance curRec, and
return its RID when the predicate matches, else continue. -/
def HeapFileScan.scanNextStep (s : ScanState) : LoopRes :=
  match s.curPage with
  | none => .done .BADPAGEPTR none s []
  | some h =>
    match s.file.pages h with
    | none => .done .BADPAGEPTR none s [BufEvent.access h]
    | some pg =>
      let r1 :=
        if s.curRec.pageNo = -1 ∧ s.curRec.slotNo = -1 then pg.firstRecord
        else pg.nextRecord s.curRec
      let evs0 := [BufEvent.access h]
      if r1.1 = .NORECORDS ∨ r1.1 = .ENDOFPAGE then
        -- lines 330-333: unpin first, then read the next-page link
        -- through the handle of the page just unpinned
        let evs1 := evs0 ++ [BufEvent.unpin s.curPageNo s.curDirtyFlag, BufEvent.access h]
        let nextPageNo := (pg.getNextPage).2
        if nextPageNo = -1 then
          .done .NOMORERECS none { s with curPage := none } evs1
        else
          match s.file.pages nextPageNo with
          | none => .done .BADPAGENO none s (evs1 ++ [BufEvent.read nextPageNo])
          | some _ =>
            .cont { s with curPage := some nextPageNo, curPageNo := nextPageNo,
                           curRec := NULLRID, curDirtyFlag := false }
                  (evs1 ++ [BufEvent.read nextPageNo])
      else if r1.1 ≠ .OK then
        .done r1.1 none s evs0
      else
        let r2 := pg.getRecord r1.2
        let evs2 := evs0 ++ [BufEvent.access h]
        if r2.1 ≠ .OK then
          .done r2.1 none s evs2
        else if HeapFileScan.matchRec s r2.2 then
          .done .OK (some r1.2) { s with curRec := r1.2 } evs2
        else
          .cont { s with curRec := r1.2 } evs2

/-- HeapFileScan::scanNext (lines 314-367): iterate the loop body, with
explicit fuel bounding the number of iterations (none = the model ran out
of fuel; the source loop would keep running). -/
def HeapFileScan.scanNext : Nat → ScanState → Option ScanOut
  | 0, _ => none
  | fuel + 1, s =>
    match HeapFileScan.scanNextStep s with
    | .done st rid s' evs => some (st, rid, s', evs)
    | .cont s' evs =>
      (HeapFileScan.scanNext fuel s').map
        (fun o => (o.1, o.2.1, o.2.2.1, evs ++ o.2.2.2))

/-- HeapFileScan::deleteRecord (lines 379-391): delete curRec from the
current page, mark the page dirty, decrement the header record count, mark
the header dirty, and return the page-level status - all of the state
updates happen whether or not the page-level delete succeeded. -/
def HeapFileScan.deleteRecord (s : ScanState) : Status × ScanState × List BufEvent :=
  match s.curPage with
  | none => (.BADPAGEPTR, s, [])
  | some h =>
    match s.file.pages h with
    | none => (.BADPAGEPTR, s, [BufEvent.access h])
    | some pg =>
      let r := Page.deleteRecord pg s.curRec
      let s' := { s with
        file := { s.file with
          pages := Function.update s.file.pages h (some r.2),
          hdr := { s.file.hdr with recCnt := s.file.hdr.recCnt - 1 } },
        curDirtyFlag := true, hdrDirtyFlag := true }
      (r.1, s', [BufEvent.access h])

/-- InsertFileScan::insertRecord (lines 476-539): reject records longer than
the maximum page payload (via the unsigned cast of line 484); try the
current page; on NOSPACE allocate a new page, initialise it, link it as the
successor of the current page, unpin the old current page as dirty, update
lastPage and pageCnt in the header, make the new page current, and retry
the insert there; bump recCnt and the dirty flags on every successful
insert. -/
def InsertFileScan.insertRecord (s : ScanState) (rec : Record) :
    Status × Option RID × ScanState × List BufEvent :=
  if maxPayload < asUnsigned rec.length then
    (.INVALIDRECLEN, none, s, [])
  else
    match s.curPage with
    | none => (.BADPAGEPTR, none, s, [])
    | some h =>
      match s.file.pages h with
      | none => (.BADPAGEPTR, none, s, [BufEvent.access h])
      | some pg =>
        let r := Page.insertRecord pg rec
        if r.1 = .OK then
          let s' := { s with
            file := { s.file with
              pages := Function.update s.file.pages h (some r.2.2),
              hdr := { s.file.hdr with recCnt := s.file.hdr.recCnt + 1 } },
            hdrDirtyFlag := true, curDirtyFlag := true }
          (.OK, some r.2.1, s', [BufEvent.access h])
        else if r.1 = .NOSPACE then
          let newPageNo := s.file.nextAlloc
          let newPg := Page.init newPageNo
          -- allocPage + newPage->init
          let pagesA := Function.update s.file.pages newPageNo (some newPg)
          -- curPage->setNextPage(newPageNo)
          let pagesB := Function.update pagesA h (some (pg.setNextPage newPageNo).2)
          -- unpin the old current page dirty; update the header; switch
          let hdr' :=
            { s.file.hdr with lastPage := newPageNo, pageCnt := s.file.hdr.pageCnt + 1 }
          let s1 := { s with
            file := { hdr := hdr', pages := pagesB, nextAlloc := s.file.nextAlloc + 1 },
            hdrDirtyFlag := true, curPage := some newPageNo, curPageNo := newPageNo,
            curDirtyFlag := false }
          let evs := [BufEvent.access h, BufEvent.alloc newPageNo,
                      BufEvent.access newPageNo, BufEvent.access h,
                      BufEvent.unpin s.curPageNo true, BufEvent.access newPageNo]
          -- curPage->insertRecord(rec) on the new current page
          match pagesB newPageNo with
          | none => (.BADPAGEPTR, none, s1, evs)
          | some pgN =>
            let r2 := Page.insertRecord pgN rec
            if r2.1 ≠ .OK then
              (r2.1, none, s1, evs)
            else
              let s2 := { s1 with
                file := { s1.file with
                  pages := Function.update s1.file.pages newPageNo (some r2.2.2),
                  hdr := { s1.file.hdr with recCnt := s1.file.hdr.recCnt + 1 } },
                hdrDirtyFlag := true, curDirtyFlag := true }
              (.OK, some r2.2.1, s2, evs)
        else
          (r.1, none, s, [BufEvent.access h])

/-- Page numbers of the data-page chain starting at p, following the
next-page links for at most fuel pages; none when the fuel runs out before
the end sentinel (or a link points at a missing page). -/
def chainFrom (pages : Int → Option Page) : Int → Nat → Option (List Int)
  | _, 0 => none
  | p, fuel + 1 =>
    if p = -1 then some []
    else
      match pages p with
      | none => none
      | some pg => (chainFrom pages pg.nextPage fuel).map (fun l => p :: l)

/-- Total number of records on the chain starting at p. -/
def chainRecCount (pages : Int → Option Page) : Int → Nat → Option Nat
  | _, 0 => none
  | p, fuel + 1 =>
    if p = -1 then some 0
    else
      match pages p with
      | none => none
      | some pg => (chainRecCount pages pg.nextPage fuel).map (fun n => pg.recs.length + n)

/-- Number of allocPage calls in a trace. -/
def allocCount (evs : List BufEvent) : Nat :=
  (evs.filter (fun e => match e with | .alloc _ => true | _ => false)).length

/-- Does an access of page p occur strictly before any re-read of p in the
trace? Helper of staleAccess. -/
def accessBeforeRead (p : Int) : List BufEvent → Bool
  | [] => false
  | e :: rest =>
    match e with
    | .read q => if q = p then false else accessBeforeRead p rest
    | .access q => if q = p then true else accessBeforeRead p rest
    | _ => accessBeforeRead p rest

/-- Does the trace unpin page p and later access p through its handle
without re-reading (re-pinning) p in between? -/
def staleAccess (p : Int) : List BufEvent → Bool
  | [] => false
  | e :: rest =>
    match e with
    | .unpin q _ =>
      if q = p then accessBeforeRead p rest || staleAccess p rest
      else staleAccess p rest
    | _ => staleAccess p rest

/-- One mutation step of an open heap file: any of the embedded operations
of HeapFile, HeapFileScan or InsertFileScan, or a re-open of the same file
(spec section about reachable states: createHeapFile followed by any
sequence of open / scan / insert / delete operations). -/
inductive Step : ScanState → ScanState → Prop
  | openS (s : ScanState) : Step s (openHeapFile s.file).2
  | endS (s : ScanState) : Step s (HeapFileScan.endScan s).2.1
  | startS (s : ScanState) (off len : Int) (ty : Datatype)
      (fb : Option (List Nat)) (op : Operator) :
      Step s (HeapFileScan.startScan s off len ty fb op).2
  | getRec (s : ScanState) (rid : RID) : Step s (HeapFile.getRecord s rid).2.2.1
  | next (s : ScanState) (fuel : Nat) (o : ScanOut)
      (h : HeapFileScan.scanNext fuel s = some o) : Step s o.2.2.1
  | mark (s : ScanState) : Step s (HeapFileScan.markScan s).2
  | reset (s : ScanState) : Step s (HeapFileScan.resetScan s).2.1
  | del (s : ScanState) : Step s (HeapFileScan.deleteRecord s).2.1
  | ins (s : ScanState) (rec : Record) : Step s (InsertFileScan.insertRecord s rec).2.2.1

/-- States reachable from a freshly created and opened heap file. -/
def Reachable (name : String) (s : ScanState) : Prop :=
  Relation.ReflTransGen Step (openHeapFile (newHeapFileState name)).2 s

/-- File name used by the concrete witness states. -/
def t1 : String := "t1"

/-- State of the file t1 right after createHeapFile plus open. -/
def initState : ScanState := (openHeapFile (newHeapFileState t1)).2

/-- The comparison operator applied to the sign of a difference, as the
claims state it: LT strictly negative, LTE non-positive, EQ zero, GTE
non-negative, GT strictly positive, NE non-zero. -/
def opHolds (op : Operator) (d : Int) : Prop :=
  match op with
  | .LT => d < 0
  | .LTE => d ≤ 0
  | .EQ => d = 0
  | .GTE => 0 ≤ d
  | .GT => 0 < d
  | .NE => d ≠ 0

instance (op : Operator) (d : Int) : Decidable (opHolds op d) := by
  cases op <;> simp only [opHolds] <;> infer_instance

/-- Rejection condition of startScan for a non-null filter, exactly as the
claim lists it. -/
def badScanParams (off len : Int) (ty : Datatype) (op : Operator) : Prop :=
  off < 0 ∨ len < 1
    ∨ (ty ≠ .STRING ∧ ty ≠ .INTEGER ∧ ty ≠ .FLOAT)
    ∨ (ty = .INTEGER ∧ len ≠ sizeofInt)
    ∨ (ty = .FLOAT ∧ len ≠ sizeofFloat)
    ∨ (op ≠ .LT ∧ op ≠ .LTE ∧ op ≠ .EQ ∧ op ≠ .GTE ∧ op ≠ .GT ∧ op ≠ .NE)

instance (off len : Int) (ty : Datatype) (op : Operator) :
    Decidable (badScanParams off len ty op) := by
  unfold badScanParams
  infer_instance

/-- A chain of zero or more scanNext calls that all returned OK (each with
a produced RID), linking the state before to the state after. -/
inductive SuccNexts : ScanState → ScanState → Prop
  | refl (s : ScanState) : SuccNexts s s
  | step (s s' s'' : ScanState) (fuel : Nat) (rid : RID) (evs : List BufEvent)
      (h : HeapFileScan.scanNext fuel s = some (.OK, some rid, s', evs))
      (h2 : SuccNexts s' s'') : SuccNexts s s''

/-- Observable result of a scanNext call: status and produced RID. -/
def scanObs (o : ScanOut) : Status × Option RID := (o.1, o.2.1)

/-- A second data page holding one record in slot 0, used by the concrete
getRecord counterexample. -/
def pg2 : Page := { pageNo := 2, recs := [(0, ⟨[7], 1⟩)], nextSlot := 1, nextPage := -1 }

/-- Concrete open state over a two-data-page file: page 1 (current, pinned)
chained before page 2. -/
def c1state : ScanState :=
  { initState with
    file := { initState.file with
      pages := fun p =>
        if p = 1 then some { Page.init 1 with nextPage := 2 }
        else if p = 2 then some pg2 else none,
      nextAlloc := 3,
      hdr := { initState.file.hdr with pageCnt := 3, lastPage := 2 } } }

/-- Concrete scan state configured with an INTEGER predicate: offset 0,
length 4, filter bytes holding -1, operator GT. -/
def c6state : ScanState :=
  { initState with filter := some [255, 255, 255, 255], offset := 0, length := 4,
                   type := .INTEGER, op := .GT }

/-- A record that fills a data page completely. -/
def bigRec : Record := ⟨[], 1004⟩

/-- A data page with no free space left. -/
def fullPg : Page := { pageNo := 1, recs := [(0, bigRec)], nextSlot := 1, nextPage := -1 }

/-- Concrete open state whose single (current) data page is full. -/
def c4state : ScanState :=
  { initState with
    file := { initState.file with
      pages := fun p => if p = 1 then some fullPg else none } }

/-- A small record used by the insert witnesses. -/
def recW : Record := ⟨[1, 2], 40⟩

/-- Agreement of two open states on everything scanNext never writes: the
file, the header dirty flag, the filter configuration and the mark. -/
def metaEq (a b : ScanState) : Prop :=
  a.file = b.file ∧ a.hdrDirtyFlag = b.hdrDirtyFlag ∧ a.filter = b.filter ∧
  a.offset = b.offset ∧ a.length = b.length ∧ a.type = b.type ∧ a.op = b.op ∧
  a.markedPageNo = b.markedPageNo ∧ a.markedRec = b.markedRec

/-- The two-page state c1state right after markScan (mark on page 1). -/
def m1 : ScanState := (HeapFileScan.markScan c1state).2

/-- The state after one successful scanNext from m1, which crosses from the
empty page 1 to page 2 and returns the record in slot 0 of page 2. -/
def afterNext1 : ScanState :=
  ((HeapFileScan.scanNext 2 m1).getD (.OK, none, m1, [])).2.2.1

/-- Relation between the loop-body results of two states differing only in
curDirtyFlag: same status and RID when the loop returns, and continuation
states again differing in at most curDirtyFlag. -/
def dirtyRel (d : Bool) : LoopRes → LoopRes → Prop
  | .done st2 rid2 _ _, .done st rid _ _ => st2 = st ∧ rid2 = rid
  | .cont s2 _, .cont s' _ => s2 = s' ∨ s2 = { s' with curDirtyFlag := d }
  | _, _ => False

/-!  Theorems.  -/

theorem metaEq_rfl (a : ScanState) : metaEq a a :=
  ⟨rfl, rfl, rfl, rfl, rfl, rfl, rfl, rfl, rfl⟩

theorem metaEq_trans {a b c : ScanState} (h1 : metaEq a b) (h2 : metaEq b c) : metaEq a c :=
  ⟨h1.1.trans h2.1, h1.2.1.trans h2.2.1, h1.2.2.1.trans h2.2.2.1,
    h1.2.2.2.1.trans h2.2.2.2.1, h1.2.2.2.2.1.trans h2.2.2.2.2.1,
    h1.2.2.2.2.2.1.trans h2.2.2.2.2.2.1, h1.2.2.2.2.2.2.1.trans h2.2.2.2.2.2.2.1,
    h1.2.2.2.2.2.2.2.1.trans h2.2.2.2.2.2.2.2.1, h1.2.2.2.2.2.2.2.2.trans h2.2.2.2.2.2.2.2.2⟩

theorem openHeapFile_file (f : FileState) : (openHeapFile f).2.file = f := by
  cases hf : f.pages f.hdr.firstPage <;> simp [openHeapFile, hf, closedState]

theorem endScan_file (s : ScanState) : (HeapFileScan.endScan s).2.1.file = s.file := by
  cases hc : s.curPage <;> simp [HeapFileScan.endScan, hc]

theorem startScan_file (s : ScanState) (off len : Int) (ty : Datatype)
    (fb : Option (List Nat)) (op : Operator) :
    (HeapFileScan.startScan s off len ty fb op).2.file = s.file := by
  unfold HeapFileScan.startScan
  cases fb
  · rfl
  · repeat' split
    all_goals rfl

theorem getRecordTail_file (s : ScanState) (h : Int) (rid : RID) (evs : List BufEvent) :
    (HeapFile.getRecordTail s h rid evs).2.2.1.file = s.file := by
  unfold HeapFile.getRecordTail
  dsimp only
  repeat' split
  all_goals rfl

theorem getRecordSwitch_file (s : ScanState) (rid : RID) (evs : List BufEvent) :
    (HeapFile.getRecordSwitch s rid evs).2.2.1.file = s.file := by
  unfold HeapFile.getRecordSwitch
  split
  · rfl
  · exact getRecordTail_file _ _ _ _

theorem getRecord_file (s : ScanState) (rid : RID) :
    (HeapFile.getRecord s rid).2.2.1.file = s.file := by
  unfold HeapFile.getRecord
  split
  · split
    · exact getRecordTail_file _ _ _ _
    · exact getRecordSwitch_file _ _ _
  · exact getRecordSwitch_file _ _ _

theorem resetScan_file (s : ScanState) : (HeapFileScan.resetScan s).2.1.file = s.file := by
  unfold HeapFileScan.resetScan
  dsimp only
  repeat' split
  all_goals rfl

theorem scanNextStep_done_pres (s : ScanState) (st : Status) (rid : Option RID)
    (s' : ScanState) (evs : List BufEvent)
    (h : HeapFileScan.scanNextStep s = .done st rid s' evs) :
    metaEq s' s ∧ (st = .OK → s'.curPage = s.curPage ∧ s'.curPageNo = s.curPageNo) := by
  unfold HeapFileScan.scanNextStep at h
  dsimp only at h
  repeat' split at h
  all_goals cases h
  all_goals refine ⟨⟨rfl, rfl, rfl, rfl, rfl, rfl, rfl, rfl, rfl⟩, fun hst => ?_⟩
  all_goals first
    | exact ⟨rfl, rfl⟩
    | simp at hst

theorem scanNextStep_cont_pres (s : ScanState) (s' : ScanState) (evs : List BufEvent)
    (h : HeapFileScan.scanNextStep s = .cont s' evs) :
    metaEq s' s ∧ (s.curPage = some s.curPageNo → s'.curPage = some s'.curPageNo) := by
  unfold HeapFileScan.scanNextStep at h
  dsimp only at h
  repeat' split at h
  all_goals cases h
  all_goals refine ⟨⟨rfl, rfl, rfl, rfl, rfl, rfl, rfl, rfl, rfl⟩, fun hc => ?_⟩
  all_goals first
    | rfl
    | exact hc

theorem scanNext_pres (fuel : Nat) (s : ScanState) (o : ScanOut)
    (h : HeapFileScan.scanNext fuel s = some o) :
    metaEq o.2.2.1 s ∧
    (s.curPage = some s.curPageNo → o.1 = .OK →
      o.2.2.1.curPage = some o.2.2.1.curPageNo) := by
  induction fuel generalizing s o with
  | zero => simp [HeapFileScan.scanNext] at h
  | succ n ih =>
    unfold HeapFileScan.scanNext at h
    cases hstep : HeapFileScan.scanNextStep s with
    | done st rid s' evs =>
      rw [hstep] at h
      cases h
      obtain ⟨hm, hok⟩ := scanNextStep_done_pres s st rid s' evs hstep
      exact ⟨hm, fun hc hst => by rw [(hok hst).1, (hok hst).2]; exact hc⟩
    | cont s' evs =>
      rw [hstep] at h
      dsimp only at h
      rcases ho' : HeapFileScan.scanNext n s' with _ | o'
      · rw [ho'] at h
        simp at h
      · rw [ho'] at h
        cases h
        obtain ⟨hm', hc'⟩ := ih s' o' ho'
        obtain ⟨hmS, hcS⟩ := scanNextStep_cont_pres s s' evs hstep
        exact ⟨metaEq_trans hm' hmS, fun hc hok => hc' (hcS hc) hok⟩

/-- C3: the claim says a data page is never accessed through its handle
after that page has been unpinned, and in particular that the next-page
pointer is not read from the page handle after the unpin. The code does the
opposite: scanNext (lines 330-333) unpins the exhausted current page and
only then calls getNextPage through the stale handle. Evaluating the
embedded scanNext on a freshly created file (one empty data page, page 1)
produces a trace that unpins page 1 and then accesses page 1 with no
re-read in between. -/
theorem C3_stale_access_at_failing_input :
    (HeapFileScan.scanNext 1 initState).map (fun o => (o.1, o.2.2.2)) =
      some (Status.NOMORERECS,
        [BufEvent.access 1, BufEvent.unpin 1 false, BufEvent.access 1]) ∧
    staleAccess 1 [BufEvent.access 1, BufEvent.unpin 1 false, BufEvent.access 1] = true := by
  exact ⟨rfl, rfl⟩

/-- C7: an insert whose record length exceeds the maximum page payload
returns INVALIDRECLEN immediately: the state is returned unchanged (header
record count and page count included) and the trace is empty, so no page
was allocated and no page-level insert was attempted. -/
theorem C7_oversized_insert (s : ScanState) (rec : Record)
    (h : maxPayload < rec.length) :
    InsertFileScan.insertRecord s rec = (.INVALIDRECLEN, none, s, []) := by
  have h0 : maxPayload < asUnsigned rec.length := by
    unfold maxPayload PAGESIZE DPFIXED at h ⊢
    unfold asUnsigned
    split <;> omega
  unfold InsertFileScan.insertRecord
  simp [if_pos h0]

/-- Witness for C7 at a concrete oversized record. -/
theorem C7_witness :
    maxPayload < (2000 : Int) ∧
    InsertFileScan.insertRecord initState ⟨[], 2000⟩ = (.INVALIDRECLEN, none, initState, []) :=
  ⟨by decide, C7_oversized_insert initState ⟨[], 2000⟩ (by decide)⟩

/-- C9: createHeapFile on a missing file creates it with header pageCnt = 2
(header page 0 plus one data page), recCnt = 0, and firstPage = lastPage =
the allocated data page (page 1, which exists and is empty); on an existing
file it returns FILEEXISTS and leaves the db unchanged. -/
theorem C9_createHeapFile (db : DB) (name : String) :
    (dbLookup db name = none →
      createHeapFile db name = (.OK, ⟨(name, newHeapFileState name) :: db.files⟩) ∧
      dbLookup ⟨(name, newHeapFileState name) :: db.files⟩ name = some (newHeapFileState name) ∧
      (newHeapFileState name).hdr.pageCnt = 2 ∧
      (newHeapFileState name).hdr.recCnt = 0 ∧
      (newHeapFileState name).hdr.firstPage = 1 ∧
      (newHeapFileState name).hdr.lastPage = 1 ∧
      (newHeapFileState name).pages 1 = some (Page.init 1)) ∧
    (∀ f, dbLookup db name = some f → createHeapFile db name = (.FILEEXISTS, db)) := by
  constructor
  · intro h
    refine ⟨?_, ?_, rfl, rfl, rfl, rfl, rfl⟩
    · unfold createHeapFile
      rw [h]
    · unfold dbLookup
      simp
  · intro f h
    unfold createHeapFile
    rw [h]

/-- Witness for C9: creating t1 in an empty db succeeds; creating it again
fails with FILEEXISTS and changes nothing. -/
theorem C9_witness :
    dbLookup ⟨[]⟩ t1 = none ∧
    createHeapFile ⟨[]⟩ t1 = (.OK, ⟨[(t1, newHeapFileState t1)]⟩) ∧
    dbLookup ⟨[(t1, newHeapFileState t1)]⟩ t1 = some (newHeapFileState t1) ∧
    createHeapFile ⟨[(t1, newHeapFileState t1)]⟩ t1 = (.FILEEXISTS, ⟨[(t1, newHeapFileState t1)]⟩) := by
  refine ⟨rfl, ?_, rfl, ?_⟩
  · exact ((C9_createHeapFile ⟨[]⟩ t1).1 rfl).1
  · exact (C9_createHeapFile ⟨[(t1, newHeapFileState t1)]⟩ t1).2 (newHeapFileState t1) rfl

/-- C5: with a non-null filter, startScan returns BadScanParameter exactly
under the rejection condition the claim lists (badScanParams), and
otherwise stores the five filter fields and returns OK; with a null filter
it disables filtering (after which every record matches) and returns OK. -/
theorem C5_startScan (s : ScanState) (off len : Int) (ty : Datatype) (op : Operator) :
    (∀ fb : List Nat,
      ((HeapFileScan.startScan s off len ty (some fb) op).1 = .BADSCANPARM ↔
        badScanParams off len ty op) ∧
      (¬ badScanParams off len ty op →
        HeapFileScan.startScan s off len ty (some fb) op =
          (.OK, { s with offset := off, length := len, type := ty,
                         filter := some fb, op := op }))) ∧
    (HeapFileScan.startScan s off len ty none op = (.OK, { s with filter := none }) ∧
      ∀ rec, HeapFileScan.matchRec { s with filter := none } rec = true) := by
  have hequiv : ((off < 0 ∨ len < 1)
        ∨ (ty ≠ .STRING ∧ ty ≠ .INTEGER ∧ ty ≠ .FLOAT)
        ∨ ((ty = .INTEGER ∧ len ≠ sizeofInt) ∨ (ty = .FLOAT ∧ len ≠ sizeofFloat))
        ∨ (op ≠ .LT ∧ op ≠ .LTE ∧ op ≠ .EQ ∧ op ≠ .GTE ∧ op ≠ .GT ∧ op ≠ .NE))
      ↔ badScanParams off len ty op := by
    unfold badScanParams
    tauto
  refine ⟨fun fb => ?_, rfl, fun rec => rfl⟩
  by_cases hc : (off < 0 ∨ len < 1)
      ∨ (ty ≠ .STRING ∧ ty ≠ .INTEGER ∧ ty ≠ .FLOAT)
      ∨ ((ty = .INTEGER ∧ len ≠ sizeofInt) ∨ (ty = .FLOAT ∧ len ≠ sizeofFloat))
      ∨ (op ≠ .LT ∧ op ≠ .LTE ∧ op ≠ .EQ ∧ op ≠ .GTE ∧ op ≠ .GT ∧ op ≠ .NE)
  · have hr : HeapFileScan.startScan s off len ty (some fb) op = (.BADSCANPARM, s) := by
      simp only [HeapFileScan.startScan]
      rw [if_pos hc]
    rw [hr]
    exact ⟨⟨fun _ => hequiv.mp hc, fun _ => rfl⟩, fun hnot => absurd (hequiv.mp hc) hnot⟩
  · have hr : HeapFileScan.startScan s off len ty (some fb) op =
        (.OK, { s with offset := off, length := len, type := ty,
                       filter := some fb, op := op }) := by
      simp only [HeapFileScan.startScan]
      rw [if_neg hc]
    rw [hr]
    refine ⟨⟨fun habs => absurd habs (by simp), fun hbad => absurd (hequiv.mpr hbad) hc⟩,
      fun _ => rfl⟩

/-- Witness for C5: a negative offset is rejected; a valid INTEGER
configuration is stored. -/
theorem C5_witness :
    badScanParams (-1) 4 .INTEGER .EQ ∧
    (HeapFileScan.startScan initState (-1) 4 .INTEGER (some [0, 0, 0, 0]) .EQ).1 = .BADSCANPARM ∧
    ¬ badScanParams 0 4 .INTEGER .EQ ∧
    HeapFileScan.startScan initState 0 4 .INTEGER (some [0, 0, 0, 0]) .EQ =
      (.OK, { initState with offset := 0, length := 4, type := .INTEGER,
                             filter := some [0, 0, 0, 0], op := .EQ }) := by
  refine ⟨by decide, ?_, by decide, ?_⟩
  · exact ((C5_startScan initState (-1) 4 .INTEGER .EQ).1 [0, 0, 0, 0]).1.mpr (by decide)
  · exact ((C5_startScan initState 0 4 .INTEGER .EQ).1 [0, 0, 0, 0]).2 (by decide)

/-- C6 counterexample: the claim says a configured INTEGER predicate
matches exactly when the sign of the EXACT signed difference satisfies the
operator. With attribute bytes holding 2147483647 and filter bytes holding
-1, the exact difference 2^31 is strictly positive, so under operator GT
the claim predicts a match; the code computes the difference in wrapping
32-bit int arithmetic (line 422), obtains -2^31, and does not match. -/
theorem C6_counterexample :
    c6state.type = .INTEGER ∧ c6state.op = .GT ∧
    c6state.filter = some [255, 255, 255, 255] ∧
    0 < decodeI32 [255, 255, 255, 127] - decodeI32 [255, 255, 255, 255] ∧
    HeapFileScan.matchRec c6state ⟨[255, 255, 255, 127], 4⟩ = false := by
  refine ⟨rfl, rfl, rfl, by decide, by decide⟩

/-- C6 as amended: for a configured INTEGER predicate whose window lies
within the declared record length, matchRec is true exactly when the sign
of the WRAPPED (twos-complement 32-bit) difference attribute - filter
satisfies the operator. -/
theorem C6_matchRec_integer (s : ScanState) (rec : Record) (fb : List Nat)
    (hf : s.filter = some fb) (ht : s.type = .INTEGER) (hl : s.length = 4)
    (_ho : 0 ≤ s.offset) (hw : s.offset + s.length - 1 < rec.length) :
    HeapFileScan.matchRec s rec = true ↔
      opHolds s.op (wrap32 (decodeI32 ((rec.data.drop s.offset.toNat).take 4)
        - decodeI32 (fb.take 4))) := by
  rw [hl] at hw
  simp only [HeapFileScan.matchRec, hf, ht, hl]
  rw [if_neg (not_le.mpr hw)]
  have h4 : (4 : Int).toNat = 4 := rfl
  rw [h4]
  cases hop : s.op <;> simp [opHolds]

/-- Witness for C6 at a concrete matching input (attribute 5, filter -1,
operator GT; wrapped difference 6 is strictly positive). -/
theorem C6_witness :
    c6state.filter = some [255, 255, 255, 255] ∧ c6state.type = .INTEGER ∧
    c6state.length = 4 ∧ 0 ≤ c6state.offset ∧
    c6state.offset + c6state.length - 1 < (4 : Int) ∧
    HeapFileScan.matchRec c6state ⟨[5, 0, 0, 0], 4⟩ = true := by
  refine ⟨rfl, rfl, rfl, by decide, by decide, ?_⟩
  exact (C6_matchRec_integer c6state ⟨[5, 0, 0, 0], 4⟩ [255, 255, 255, 255]
    rfl rfl rfl (by decide) (by decide)).mpr (by decide)

/-- C1 counterexample: in the concrete two-page file, getRecord for RID
(2, 5) switches the current page from 1 to 2 (unpin 1, read 2) and the
page-level read then fails (slot 5 does not exist); the claim says the just
pinned page 2 is unpinned, but the trace contains no unpin of page 2 at
all - page 2 stays pinned as the new current page. -/
theorem C1_counterexample :
    (HeapFile.getRecord c1state ⟨2, 5⟩).1 = .INVALIDSLOTNO ∧
    (HeapFile.getRecord c1state ⟨2, 5⟩).2.2.1.curPage = some 2 ∧
    (HeapFile.getRecord c1state ⟨2, 5⟩).2.2.1.curPageNo = 2 ∧
    (HeapFile.getRecord c1state ⟨2, 5⟩).2.2.2 =
      [BufEvent.unpin 1 false, BufEvent.read 2, BufEvent.access 2] ∧
    (∀ d, BufEvent.unpin 2 d ∉ (HeapFile.getRecord c1state ⟨2, 5⟩).2.2.2) :=
  ⟨rfl, rfl, rfl, rfl, by decide⟩

/-- C1 as amended: when getRecord switches the current page (the old page
is unpinned, rid.pageNo is read and pinned as the new current page) and the
page-level read then fails, the original failure status is returned, but
the just-pinned page is NOT unpinned: it remains pinned as the new current
page (curPage = curPageNo = rid.pageNo, dirty flag false), because the
cleanup branch of lines 214-216 tests curPageNo against rid.pageNo after
curPageNo has already been set to rid.pageNo and is therefore unreachable. -/
theorem C1_amended (s : ScanState) (h : Int) (rid : RID) (pg : Page)
    (hcur : s.curPage = some h) (hne : s.curPageNo ≠ rid.pageNo)
    (hpg : s.file.pages rid.pageNo = some pg)
    (hfail : (Page.getRecord pg rid).1 ≠ .OK) :
    HeapFile.getRecord s rid =
      ((Page.getRecord pg rid).1, none,
        { s with curPage := some rid.pageNo, curPageNo := rid.pageNo, curDirtyFlag := false },
        [BufEvent.unpin s.curPageNo s.curDirtyFlag, BufEvent.read rid.pageNo,
          BufEvent.access rid.pageNo]) ∧
    (∀ d, BufEvent.unpin rid.pageNo d ∉
        [BufEvent.unpin s.curPageNo s.curDirtyFlag, BufEvent.read rid.pageNo,
          BufEvent.access rid.pageNo]) := by
  constructor
  · simp only [HeapFile.getRecord, hcur]
    rw [if_neg hne]
    simp only [HeapFile.getRecordSwitch, hpg]
    simp only [HeapFile.getRecordTail, hpg]
    rw [if_pos hfail]
    rw [if_neg (by simp)]
    simp
  · intro d
    have hne' : rid.pageNo ≠ s.curPageNo := Ne.symm hne
    simp [hne']

/-- Witness for C1 at the concrete two-page file. -/
theorem C1_witness :
    c1state.curPage = some 1 ∧ c1state.curPageNo ≠ (2 : Int) ∧
    c1state.file.pages 2 = some pg2 ∧ (Page.getRecord pg2 ⟨2, 5⟩).1 ≠ .OK ∧
    HeapFile.getRecord c1state ⟨2, 5⟩ =
      ((Page.getRecord pg2 ⟨2, 5⟩).1, none,
        { c1state with curPage := some 2, curPageNo := 2, curDirtyFlag := false },
        [BufEvent.unpin c1state.curPageNo c1state.curDirtyFlag, BufEvent.read 2,
          BufEvent.access 2]) := by
  refine ⟨rfl, by decide, rfl, by decide, ?_⟩
  exact (C1_amended c1state 1 ⟨2, 5⟩ pg2 rfl (by decide) rfl (by decide)).1

/-- C10: deleteRecord of the scan decrements the header record count and
sets both the current-page dirty flag and the header dirty flag
unconditionally, returns the page-level status unchanged, and on a
page-level failure leaves the pages (hence the live records) untouched, so
a header count that equaled the live-record count beforehand no longer
does. -/
theorem C10_deleteCurrent (s : ScanState) (h : Int) (pg : Page)
    (hcur : s.curPage = some h) (hpg : s.file.pages h = some pg) :
    (HeapFileScan.deleteRecord s).2.1.file.hdr.recCnt = s.file.hdr.recCnt - 1 ∧
    (HeapFileScan.deleteRecord s).2.1.curDirtyFlag = true ∧
    (HeapFileScan.deleteRecord s).2.1.hdrDirtyFlag = true ∧
    (HeapFileScan.deleteRecord s).1 = (Page.deleteRecord pg s.curRec).1 ∧
    ((Page.deleteRecord pg s.curRec).1 ≠ .OK →
      (HeapFileScan.deleteRecord s).2.1.file.pages = s.file.pages ∧
      ∀ fuel n, chainRecCount s.file.pages s.file.hdr.firstPage fuel = some n →
        s.file.hdr.recCnt = (n : Int) →
        chainRecCount (HeapFileScan.deleteRecord s).2.1.file.pages
          (HeapFileScan.deleteRecord s).2.1.file.hdr.firstPage fuel = some n ∧
        (HeapFileScan.deleteRecord s).2.1.file.hdr.recCnt ≠ (n : Int)) := by
  have hd : HeapFileScan.deleteRecord s =
      ((Page.deleteRecord pg s.curRec).1,
        { s with
            file := { s.file with
                        pages := Function.update s.file.pages h
                          (some (Page.deleteRecord pg s.curRec).2),
                        hdr := { s.file.hdr with
                                   recCnt := s.file.hdr.recCnt - 1 } },
            curDirtyFlag := true,
            hdrDirtyFlag := true },
        [BufEvent.access h]) := by
    simp only [HeapFileScan.deleteRecord, hcur, hpg]
  rw [hd]
  refine ⟨rfl, rfl, rfl, rfl, fun hfail => ?_⟩
  have hpgeq : (Page.deleteRecord pg s.curRec).2 = pg := by
    by_cases hany : pg.recs.any (fun e => e.1 == s.curRec.slotNo)
    · simp [Page.deleteRecord, hany] at hfail
    · simp [Page.deleteRecord, hany]
  have hpages : Function.update s.file.pages h (some (Page.deleteRecord pg s.curRec).2) =
      s.file.pages := by
    rw [hpgeq, ← hpg]
    exact Function.update_eq_self h s.file.pages
  refine ⟨hpages, fun fuel n hcc hrc => ?_⟩
  constructor
  · show chainRecCount (Function.update s.file.pages h
      (some (Page.deleteRecord pg s.curRec).2)) s.file.hdr.firstPage fuel = some n
    rw [hpages]
    exact hcc
  · show s.file.hdr.recCnt - 1 ≠ (n : Int)
    omega

/-- Witness for C10: deleting the null current RID from the freshly opened
empty file fails at the page level, yet the header record count drops to
-1 while the chain still holds 0 records. -/
theorem C10_witness :
    initState.curPage = some 1 ∧ initState.file.pages 1 = some (Page.init 1) ∧
    (Page.deleteRecord (Page.init 1) initState.curRec).1 ≠ .OK ∧
    (HeapFileScan.deleteRecord initState).1 = .INVALIDSLOTNO ∧
    (HeapFileScan.deleteRecord initState).2.1.file.hdr.recCnt = -1 ∧
    chainRecCount (HeapFileScan.deleteRecord initState).2.1.file.pages
      (HeapFileScan.deleteRecord initState).2.1.file.hdr.firstPage 2 = some 0 ∧
    (HeapFileScan.deleteRecord initState).2.1.file.hdr.recCnt ≠ (0 : Int) := by
  have hmain := C10_deleteCurrent initState 1 (Page.init 1) rfl rfl
  have hfail : (Page.deleteRecord (Page.init 1) initState.curRec).1 ≠ .OK := by decide
  have hrest := hmain.2.2.2.2 hfail
  have hcc := hrest.2 2 0 rfl rfl
  refine ⟨rfl, rfl, hfail, ?_, ?_, hcc.1, hcc.2⟩
  · rw [hmain.2.2.2.1]
    decide
  · rw [hmain.1]
    decide

/-- C4: when the current page of an insert scan reports NOSPACE for a
record that is not oversized, insertRecord allocates exactly one new page,
increments pageCnt by exactly 1, points lastPage at the new page, links the
new page as the successor of the old current page, and returns OK with a
RID on the newly allocated page, on which the record now lives. -/
theorem C4_insert_overflow (s : ScanState) (pg : Page) (rec : Record)
    (hcur : s.curPage = some s.curPageNo)
    (hpg : s.file.pages s.curPageNo = some pg)
    (hfresh : s.curPageNo ≠ s.file.nextAlloc)
    (hlen : 0 ≤ rec.length) (hsz : rec.length ≤ maxPayload)
    (hfull : (Page.insertRecord pg rec).1 = .NOSPACE) :
    (InsertFileScan.insertRecord s rec).1 = .OK ∧
    (∃ rid, (InsertFileScan.insertRecord s rec).2.1 = some rid ∧
      rid.pageNo = s.file.nextAlloc ∧
      ∃ pgN, (InsertFileScan.insertRecord s rec).2.2.1.file.pages rid.pageNo = some pgN ∧
        (rid.slotNo, rec) ∈ pgN.recs) ∧
    (InsertFileScan.insertRecord s rec).2.2.1.file.hdr.pageCnt = s.file.hdr.pageCnt + 1 ∧
    (InsertFileScan.insertRecord s rec).2.2.1.file.hdr.lastPage = s.file.nextAlloc ∧
    (∃ pgOld, (InsertFileScan.insertRecord s rec).2.2.1.file.pages s.curPageNo = some pgOld ∧
      pgOld.nextPage = s.file.nextAlloc) ∧
    allocCount (InsertFileScan.insertRecord s rec).2.2.2 = 1 := by
  have hnos : ¬ (maxPayload < asUnsigned rec.length) := by
    unfold maxPayload PAGESIZE DPFIXED at hsz ⊢
    unfold asUnsigned
    split <;> omega
  have hfit : Page.usedSpace (Page.init s.file.nextAlloc) + rec.length ≤ maxPayload := by
    show (0 : Int) + rec.length ≤ maxPayload
    omega
  have hretry : Page.insertRecord (Page.init s.file.nextAlloc) rec =
      (.OK, (⟨s.file.nextAlloc, 0⟩ : RID),
        { pageNo := s.file.nextAlloc, recs := [(0, rec)], nextSlot := 1, nextPage := -1 }) := by
    simp only [Page.insertRecord]
    rw [if_pos hfit]
    rfl
  have hNe : s.file.nextAlloc ≠ s.curPageNo := Ne.symm hfresh
  have hlook : Function.update
      (Function.update s.file.pages s.file.nextAlloc (some (Page.init s.file.nextAlloc)))
      s.curPageNo (some { pg with nextPage := s.file.nextAlloc }) s.file.nextAlloc =
      some (Page.init s.file.nextAlloc) := by
    rw [Function.update_noteq hNe, Function.update_same]
  refine ⟨?_, ⟨⟨s.file.nextAlloc, 0⟩, ?_, rfl, ?_⟩, ?_, ?_, ?_, ?_⟩
  · simp [InsertFileScan.insertRecord, hcur, hpg, hfull, hnos, Page.setNextPage,
      hlook, hretry]
  · simp [InsertFileScan.insertRecord, hcur, hpg, hfull, hnos, Page.setNextPage,
      hlook, hretry]
  · refine ⟨{ pageNo := s.file.nextAlloc, recs := [(0, rec)], nextSlot := 1, nextPage := -1 },
      ?_, by simp⟩
    simp [InsertFileScan.insertRecord, hcur, hpg, hfull, hnos, Page.setNextPage,
      hlook, hretry, Function.update_same]
  · simp [InsertFileScan.insertRecord, hcur, hpg, hfull, hnos, Page.setNextPage,
      hlook, hretry]
  · simp [InsertFileScan.insertRecord, hcur, hpg, hfull, hnos, Page.setNextPage,
      hlook, hretry]
  · refine ⟨{ pg with nextPage := s.file.nextAlloc }, ?_, rfl⟩
    simp [InsertFileScan.insertRecord, hcur, hpg, hfull, hnos, Page.setNextPage,
      hlook, hretry, Function.update_noteq hfresh, Function.update_same]
  · simp [InsertFileScan.insertRecord, hcur, hpg, hfull, hnos, Page.setNextPage,
      hlook, hretry, allocCount]

/-- Witness for C4: inserting a 40-byte record into a file whose single
data page is full allocates page 2 and lands the record there. -/
theorem C4_witness :
    c4state.curPage = some c4state.curPageNo ∧
    c4state.file.pages c4state.curPageNo = some fullPg ∧
    c4state.curPageNo ≠ c4state.file.nextAlloc ∧
    (0 : Int) ≤ recW.length ∧ recW.length ≤ maxPayload ∧
    (Page.insertRecord fullPg recW).1 = .NOSPACE ∧
    (InsertFileScan.insertRecord c4state recW).1 = .OK ∧
    (InsertFileScan.insertRecord c4state recW).2.2.1.file.hdr.pageCnt =
      c4state.file.hdr.pageCnt + 1 ∧
    (InsertFileScan.insertRecord c4state recW).2.2.1.file.hdr.lastPage =
      c4state.file.nextAlloc ∧
    allocCount (InsertFileScan.insertRecord c4state recW).2.2.2 = 1 := by
  have hmain := C4_insert_overflow c4state fullPg recW rfl rfl (by decide) (by decide)
    (by decide) (by decide)
  exact ⟨rfl, rfl, by decide, by decide, by decide, by decide,
    hmain.1, hmain.2.2.1, hmain.2.2.2.1, hmain.2.2.2.2.2⟩

theorem deleteRecord_cnt (s : ScanState) :
    (HeapFileScan.deleteRecord s).2.1.file.hdr.pageCnt = s.file.hdr.pageCnt ∧
    (HeapFileScan.deleteRecord s).2.1.file.nextAlloc = s.file.nextAlloc := by
  unfold HeapFileScan.deleteRecord
  dsimp only
  repeat' split
  all_goals exact ⟨rfl, rfl⟩

theorem insertRecord_cnt (s : ScanState) (rec : Record) :
    ((InsertFileScan.insertRecord s rec).2.2.1.file.hdr.pageCnt = s.file.hdr.pageCnt ∧
      (InsertFileScan.insertRecord s rec).2.2.1.file.nextAlloc = s.file.nextAlloc) ∨
    ((InsertFileScan.insertRecord s rec).2.2.1.file.hdr.pageCnt = s.file.hdr.pageCnt + 1 ∧
      (InsertFileScan.insertRecord s rec).2.2.1.file.nextAlloc = s.file.nextAlloc + 1) := by
  unfold InsertFileScan.insertRecord
  dsimp only
  repeat' split
  all_goals first
    | exact Or.inl ⟨rfl, rfl⟩
    | exact Or.inr ⟨rfl, rfl⟩

/-- C2 counterexample: immediately after createHeapFile (the initial state
the claim itself fixes), the chain holds exactly one data page but pageCnt
is 2, not 1: pageCnt counts the header page as well. -/
theorem C2_counterexample :
    chainFrom initState.file.pages initState.file.hdr.firstPage 2 = some [1] ∧
    initState.file.hdr.pageCnt = 2 ∧
    initState.file.hdr.pageCnt ≠ (([1] : List Int).length : Int) := by
  refine ⟨rfl, rfl, by decide⟩

theorem step_cnt {a b : ScanState} (hstep : Step a b)
    (h : a.file.hdr.pageCnt = a.file.nextAlloc) :
    b.file.hdr.pageCnt = b.file.nextAlloc := by
  cases hstep with
  | openS =>
    rw [openHeapFile_file a.file]
    exact h
  | endS =>
    rw [endScan_file a]
    exact h
  | startS off len ty fb op =>
    rw [startScan_file a off len ty fb op]
    exact h
  | getRec rid =>
    rw [getRecord_file a rid]
    exact h
  | next fuel o hnx =>
    rw [(scanNext_pres fuel a o hnx).1.1]
    exact h
  | mark => exact h
  | reset =>
    rw [resetScan_file a]
    exact h
  | del =>
    rw [(deleteRecord_cnt a).1, (deleteRecord_cnt a).2]
    exact h
  | ins rec =>
    rcases insertRecord_cnt a rec with ⟨h1, h2⟩ | ⟨h1, h2⟩ <;> rw [h1, h2] <;> omega

/-- C2 as amended: in every state reachable by createHeapFile followed by
any sequence of open / scan / insert / delete operations, headerPage.pageCnt
equals the total number of pages ever allocated for the file - the header
page plus every data page, whether or not the data page is still reachable
in the chain - and this count is initially 2, not 1.  (nextAlloc is the
allocation counter of the model: pages 0 .. nextAlloc - 1 have been allocated.) -/
theorem C2_amended (name : String) (s : ScanState) (h : Reachable name s) :
    s.file.hdr.pageCnt = s.file.nextAlloc := by
  induction h with
  | refl => rfl
  | tail _ hstep ih => exact step_cnt hstep ih

/-- Witness for C2 at the initial reachable state of file t1. -/
theorem C2_witness :
    Reachable t1 initState ∧ initState.file.hdr.pageCnt = initState.file.nextAlloc :=
  ⟨Relation.ReflTransGen.refl, C2_amended t1 initState Relation.ReflTransGen.refl⟩

theorem matchRec_dirty (s : ScanState) (d : Bool) (rec : Record) :
    HeapFileScan.matchRec { s with curDirtyFlag := d } rec = HeapFileScan.matchRec s rec := rfl

theorem scanNextStep_dirty (s : ScanState) (d : Bool) :
    dirtyRel d (HeapFileScan.scanNextStep { s with curDirtyFlag := d })
      (HeapFileScan.scanNextStep s) := by
  unfold HeapFileScan.scanNextStep
  dsimp only
  simp only [matchRec_dirty]
  repeat' split
  all_goals simp_all [dirtyRel]

theorem scanNext_obs_done (n : Nat) (s : ScanState) (st : Status) (rid : Option RID)
    (s' : ScanState) (evs : List BufEvent)
    (h : HeapFileScan.scanNextStep s = .done st rid s' evs) :
    (HeapFileScan.scanNext (n + 1) s).map scanObs = some (st, rid) := by
  conv_lhs => rw [HeapFileScan.scanNext]
  rw [h]
  rfl

theorem scanNext_obs_cont (n : Nat) (s s' : ScanState) (evs : List BufEvent)
    (h : HeapFileScan.scanNextStep s = .cont s' evs) :
    (HeapFileScan.scanNext (n + 1) s).map scanObs =
      (HeapFileScan.scanNext n s').map scanObs := by
  conv_lhs => rw [HeapFileScan.scanNext]
  rw [h]
  dsimp only
  rcases hq : HeapFileScan.scanNext n s' with _ | o <;> rfl

theorem scanNext_dirty (fuel : Nat) (s : ScanState) (d : Bool) :
    (HeapFileScan.scanNext fuel { s with curDirtyFlag := d }).map scanObs =
      (HeapFileScan.scanNext fuel s).map scanObs := by
  induction fuel generalizing s with
  | zero => rfl
  | succ n ih =>
    have hrel := scanNextStep_dirty s d
    cases h1 : HeapFileScan.scanNextStep s with
    | done st rid s' evs =>
      cases h2 : HeapFileScan.scanNextStep { s with curDirtyFlag := d } with
      | done st2 rid2 s2 evs2 =>
        rw [h1, h2] at hrel
        obtain ⟨hst, hrid⟩ := hrel
        rw [scanNext_obs_done n _ _ _ _ _ h1, scanNext_obs_done n _ _ _ _ _ h2, hst, hrid]
      | cont s2 evs2 =>
        rw [h1, h2] at hrel
        exact absurd hrel (by simp [dirtyRel])
    | cont s' evs =>
      cases h2 : HeapFileScan.scanNextStep { s with curDirtyFlag := d } with
      | done st2 rid2 s2 evs2 =>
        rw [h1, h2] at hrel
        exact absurd hrel (by simp [dirtyRel])
      | cont s2 evs2 =>
        rw [h1, h2] at hrel
        rw [scanNext_obs_cont n _ _ _ h1, scanNext_obs_cont n _ _ _ h2]
        rcases hrel with hrel | hrel
        · rw [hrel]
        · rw [hrel]
          exact ih s'

theorem succNexts_pres (s s2 : ScanState) (h : SuccNexts s s2) :
    s.curPage = some s.curPageNo →
      metaEq s2 s ∧ s2.curPage = some s2.curPageNo := by
  induction h with
  | refl s => exact fun hc => ⟨metaEq_rfl s, hc⟩
  | step s s' s'' fuel rid evs hnx _ ih =>
    intro hc
    obtain ⟨hm, hcoh⟩ := scanNext_pres fuel s ((.OK, some rid, s', evs) : ScanOut) hnx
    obtain ⟨hm2, hcoh2⟩ := ih (hcoh hc rfl)
    exact ⟨metaEq_trans hm2 hm, hcoh2⟩

/-- C8: from an in-progress scan state (current page pinned and present),
markPosition followed by any number of successful next() calls followed by
resetToMark succeeds, and a subsequent next() observes exactly what a
next() issued immediately after the markPosition would have observed (same
status, same returned RID, for any loop fuel); moreover when the marked
page equals the current page, resetToMark only restores the current RID,
preserving the accumulated dirty flag and all other state. -/
theorem C8_mark_reset (s0 s2 : ScanState) (pg0 : Page)
    (hcoh : s0.curPage = some s0.curPageNo)
    (hpg : s0.file.pages s0.curPageNo = some pg0)
    (hnexts : SuccNexts (HeapFileScan.markScan s0).2 s2) :
    (HeapFileScan.resetScan s2).1 = .OK ∧
    (∀ fuel, (HeapFileScan.scanNext fuel (HeapFileScan.resetScan s2).2.1).map scanObs =
      (HeapFileScan.scanNext fuel (HeapFileScan.markScan s0).2).map scanObs) ∧
    (s2.markedPageNo = s2.curPageNo →
      (HeapFileScan.resetScan s2).2.1 = { s2 with curRec := s2.markedRec }) := by
  obtain ⟨hm, hcoh2⟩ := succNexts_pres (HeapFileScan.markScan s0).2 s2 hnexts hcoh
  obtain ⟨hfile, hhdrD, hfilt, hoff, hlen, hty, hop, hmpn, hmr⟩ := hm
  by_cases hEq : s2.markedPageNo = s2.curPageNo
  · have hres : HeapFileScan.resetScan s2 =
        (.OK, { s2 with curRec := s2.markedRec }, []) := by
      unfold HeapFileScan.resetScan
      rw [if_neg (not_not_intro hEq)]
    rw [hres]
    refine ⟨rfl, ?_, fun _ => rfl⟩
    intro fuel
    have hstate : ({ s2 with curRec := s2.markedRec } : ScanState) =
        { (HeapFileScan.markScan s0).2 with curDirtyFlag := s2.curDirtyFlag } := by
      apply ScanState.ext
      · exact hfile
      · exact hhdrD
      · rw [hcoh2, ← hEq, hmpn]
        exact hcoh.symm
      · rw [← hEq, hmpn]
        rfl
      · rfl
      · rw [hmr]
        rfl
      · exact hfilt
      · exact hoff
      · exact hlen
      · exact hty
      · exact hop
      · exact hmpn
      · exact hmr
    rw [hstate]
    exact scanNext_dirty fuel (HeapFileScan.markScan s0).2 s2.curDirtyFlag
  · have hpg2 : s2.file.pages s2.markedPageNo = some pg0 := by
      rw [hfile, hmpn]
      exact hpg
    have hres : HeapFileScan.resetScan s2 =
        (.OK, { s2 with
                  curPageNo := s2.markedPageNo,
                  curRec := s2.markedRec,
                  curPage := some s2.markedPageNo,
                  curDirtyFlag := false },
          [BufEvent.unpin s2.curPageNo s2.curDirtyFlag, BufEvent.read s2.markedPageNo]) := by
      unfold HeapFileScan.resetScan
      rw [if_pos hEq]
      simp only [hcoh2, hpg2]
      rfl
    rw [hres]
    refine ⟨rfl, ?_, fun hEq2 => absurd hEq2 hEq⟩
    intro fuel
    have hstate : ({ s2 with
                       curPageNo := s2.markedPageNo,
                       curRec := s2.markedRec,
                       curPage := some s2.markedPageNo,
                       curDirtyFlag := false } : ScanState) =
        { (HeapFileScan.markScan s0).2 with curDirtyFlag := false } := by
      apply ScanState.ext
      · exact hfile
      · exact hhdrD
      · rw [hmpn]
        exact hcoh.symm
      · rw [hmpn]
        rfl
      · rfl
      · rw [hmr]
        rfl
      · exact hfilt
      · exact hoff
      · exact hlen
      · exact hty
      · exact hop
      · exact hmpn
      · exact hmr
    rw [hstate]
    exact scanNext_dirty fuel (HeapFileScan.markScan s0).2 false

/-- Witness for C8, exercising both reset branches: on the freshly opened
file t1 with zero next calls (marked page = current page), reset restores
only the current RID; on the two-page file c1state with one successful
next call that crosses from page 1 to page 2, reset succeeds and a
subsequent next observes exactly what a next issued right after the mark
would have observed. -/
theorem C8_witness :
    initState.curPage = some initState.curPageNo ∧
    (HeapFileScan.resetScan (HeapFileScan.markScan initState).2).2.1 =
      { (HeapFileScan.markScan initState).2 with
          curRec := (HeapFileScan.markScan initState).2.markedRec } ∧
    c1state.curPage = some c1state.curPageNo ∧
    HeapFileScan.scanNext 2 m1 =
      some (.OK, some ⟨2, 0⟩, afterNext1,
        [BufEvent.access 1, BufEvent.unpin 1 false, BufEvent.access 1, BufEvent.read 2,
          BufEvent.access 2, BufEvent.access 2]) ∧
    (HeapFileScan.resetScan afterNext1).1 = .OK ∧
    (HeapFileScan.scanNext 2 (HeapFileScan.resetScan afterNext1).2.1).map scanObs =
      (HeapFileScan.scanNext 2 m1).map scanObs := by
  have h1 := C8_mark_reset initState (HeapFileScan.markScan initState).2 (Page.init 1)
    rfl rfl (SuccNexts.refl _)
  have hnx : HeapFileScan.scanNext 2 m1 =
      some (.OK, some ⟨2, 0⟩, afterNext1,
        [BufEvent.access 1, BufEvent.unpin 1 false, BufEvent.access 1, BufEvent.read 2,
          BufEvent.access 2, BufEvent.access 2]) := rfl
  have h2 := C8_mark_reset c1state afterNext1 { Page.init 1 with nextPage := 2 }
    rfl rfl (SuccNexts.step m1 afterNext1 afterNext1 2 ⟨2, 0⟩ _ hnx (SuccNexts.refl _))
  exact ⟨rfl, h1.2.2 rfl, rfl, hnx, h2.1, h2.2.1 2⟩

end HFM
